import Mathlib

/-!
Shallow embedding of the two-camera joining core of `join_two_camera.py`
(repository MojiNoYukue): the brute-force overlap (dx) search, the blend
context builder, the compositing renderer, the calibration canvas
computation, the calibration JSON round trip, and the RANSAC translation
estimator.  Pixel values are modelled as natural numbers (uint8 payloads),
floating-point quantities as exact rationals, and numpy arrays as total
functions from coordinates.  OpenCV operations that the program only uses
with pure integer translations (warpPerspective / warpAffine) are embedded
as the corresponding integer shifts; cv2.distanceTransform is an external
routine and is abstracted as an arbitrary function parameter.
-/

namespace JoinTwoCamera

/-- Single-channel image: value at row y, column x (uint8 payload as ℕ). -/
abbrev Img1 : Type := ℕ → ℕ → ℕ

/-- Three-channel image: value at row y, column x, channel c. -/
abbrev Img3 : Type := ℕ → ℕ → ℕ → ℕ

/-- Rational-valued single-channel image (float32 arrays such as distance
transforms and weight maps). -/
abbrev Img1Q : Type := ℕ → ℕ → ℚ

/-- np.clip for integers: min(max(x, lo), hi), in this order (so that an
inverted lo > hi bound resolves to hi, exactly as numpy does). -/
def clipZ (x lo hi : ℤ) : ℤ := min (max x lo) hi

/-- np.clip for rationals. -/
def clipQ (v lo hi : ℚ) : ℚ := min (max v lo) hi

/-- np.clip(v, 0, 255).astype(np.uint8) for a (nonnegative-branch) float:
clamp into [0,255] and truncate to an integer. -/
def toU8 (v : ℚ) : ℕ := (Int.toNat ⌊clipQ v 0 255⌋)

/-- cv2.warpPerspective of a single-channel image under the pure integer
translation (tx, ty) that this program uses for all its homographies
(borderValue 0).  At integer translations INTER_NEAREST and INTER_LINEAR
agree and are exact source look-ups. -/
def warp1 (h w : ℕ) (tx ty : ℤ) (img : Img1) : Img1 := fun y x =>
  if ty ≤ (y : ℤ) ∧ (y : ℤ) < ty + h ∧ tx ≤ (x : ℤ) ∧ (x : ℤ) < tx + w then
    img ((y : ℤ) - ty).toNat ((x : ℤ) - tx).toNat
  else 0

/-- cv2.warpPerspective of a three-channel image under a pure integer
translation (borderValue (0,0,0)). -/
def warp3 (h w : ℕ) (tx ty : ℤ) (img : Img3) : Img3 := fun y x c =>
  if ty ≤ (y : ℤ) ∧ (y : ℤ) < ty + h ∧ tx ≤ (x : ℤ) ∧ (x : ℤ) < tx + w then
    img ((y : ℤ) - ty).toNat ((x : ℤ) - tx).toNat c
  else 0

/-! ## build_blend_context -/

/-- Mask pixel test (mask > 0). -/
def maskPos (mk : Img1) (y x : ℕ) : Bool := decide (0 < mk y x)

/-- both = (mL & mR): pixels covered by both warped masks. -/
def bothMask (mkL mkR : Img1) (y x : ℕ) : Bool := maskPos mkL y x && maskPos mkR y x

/-- onlyL = (mL & ~mR). -/
def onlyLMask (mkL mkR : Img1) (y x : ℕ) : Bool := maskPos mkL y x && !maskPos mkR y x

/-- onlyR = (mR & ~mL). -/
def onlyRMask (mkL mkR : Img1) (y x : ℕ) : Bool := maskPos mkR y x && !maskPos mkL y x

/-- both.any(): does any canvas pixel lie in both masks? -/
def bothAny (outH outW : ℕ) (mkL mkR : Img1) : Bool :=
  (List.range outH).any fun y => (List.range outW).any fun x => bothMask mkL mkR y x

/-- The argument of cv2.distanceTransform: the binarized mask scaled back to
{0, 255}. -/
def maskScaled (mk : Img1) : Img1 := fun y x => (if 0 < mk y x then 1 else 0) * 255

/-- Per-pixel left feather weight, wL = dtL / max(1e-6, dtL + dtR) when the
overlap is non-empty, else the constant-ones array (dt abstracts
cv2.distanceTransform, an external routine). -/
def weightL (dt : Img1 → Img1Q) (outH outW : ℕ) (mkL mkR : Img1) : Img1Q :=
  if bothAny outH outW mkL mkR then
    fun y x => dt (maskScaled mkL) y x
      / max (1/1000000) (dt (maskScaled mkL) y x + dt (maskScaled mkR) y x)
  else fun _ _ => 1

/-- Per-pixel right feather weight, wR = 1 - wL when the overlap is
non-empty, else the constant-zeros array. -/
def weightR (dt : Img1 → Img1Q) (outH outW : ℕ) (mkL mkR : Img1) : Img1Q :=
  if bothAny outH outW mkL mkR then
    fun y x => 1 - weightL dt outH outW mkL mkR y x
  else fun _ _ => 0

/-- The BlendContext dataclass.  wL3 / wR3 are channel-wise repeats of the
single-channel weight maps, so the embedding keeps one channel. -/
structure BlendContext where
  out_size_wh : ℕ × ℕ
  mask_left : Img1
  mask_right : Img1
  wL : Img1Q
  wR : Img1Q
  both : ℕ → ℕ → Bool
  onlyL : ℕ → ℕ → Bool
  onlyR : ℕ → ℕ → Bool

/-- build_blend_context: warp the all-255 masks of both frames onto the
canvas with the calibration's (integer-translation) canvas homographies,
derive the region masks and the feather weights. -/
def buildBlendContext (dt : Img1 → Img1Q) (hL wLd hR wRd : ℕ)
    (txL tyL txR tyR : ℤ) (outW outH : ℕ) : BlendContext :=
  { out_size_wh := (outW, outH)
    mask_left := warp1 hL wLd txL tyL (fun _ _ => 255)
    mask_right := warp1 hR wRd txR tyR (fun _ _ => 255)
    wL := weightL dt outH outW (warp1 hL wLd txL tyL (fun _ _ => 255))
      (warp1 hR wRd txR tyR (fun _ _ => 255))
    wR := weightR dt outH outW (warp1 hL wLd txL tyL (fun _ _ => 255))
      (warp1 hR wRd txR tyR (fun _ _ => 255))
    both := bothMask (warp1 hL wLd txL tyL (fun _ _ => 255))
      (warp1 hR wRd txR tyR (fun _ _ => 255))
    onlyL := onlyLMask (warp1 hL wLd txL tyL (fun _ _ => 255))
      (warp1 hR wRd txR tyR (fun _ _ => 255))
    onlyR := onlyRMask (warp1 hL wLd txL tyL (fun _ _ => 255))
      (warp1 hR wRd txR tyR (fun _ _ => 255)) }

/-! ## _exposure_match_in_overlap and render_joined_frame_with_context -/

/-- The canvas pixels where both masks are positive (the overlap region, in
row-major order). -/
def bothPixels (outH outW : ℕ) (mkL mkR : Img1) : List (ℕ × ℕ) :=
  (List.range outH).flatMap fun y =>
    ((List.range outW).filter fun x => bothMask mkL mkR y x).map fun x => (y, x)

/-- Per-channel mean of an image over a pixel list (ndarray.mean(axis=0) on
the overlap selection). -/
def meanC (img : Img3) (pix : List (ℕ × ℕ)) (c : ℕ) : ℚ :=
  (pix.map fun p => (img p.1 p.2 c : ℚ)).sum / pix.length

/-- _exposure_match_in_overlap: if the overlap is empty return the right
canvas unchanged; otherwise scale every right-canvas channel by
mean_left / max(1e-6, mean_right) over the overlap, clip to [0, 255] and
re-quantize to uint8. -/
def exposureMatchInOverlap (lc rc : Img3) (mkL mkR : Img1) (outH outW : ℕ) : Img3 :=
  if (bothPixels outH outW mkL mkR).isEmpty then rc
  else fun y x c =>
    toU8 ((rc y x c : ℚ) * (meanC lc (bothPixels outH outW mkL mkR) c
      / max (1/1000000) (meanC rc (bothPixels outH outW mkL mkR) c)))

/-- render_joined_frame_with_context: warp both frames onto the canvas with
the calibration's (integer-translation) canvas homographies, optionally
exposure-match the right canvas, then composite per pixel — blend on the
overlap, copy on the exclusive regions, black elsewhere — and re-quantize
(np.clip(out, 0, 255).astype(np.uint8)). -/
def renderJoinedFrameWithContext (hLf wLf hRf wRf : ℕ) (frameL frameR : Img3)
    (txL tyL txR tyR : ℤ) (B : BlendContext) (exposureMatch : Bool) : Img3 :=
  fun y x c =>
    let lc := warp3 hLf wLf txL tyL frameL
    let rc0 := warp3 hRf wRf txR tyR frameR
    let rc := if exposureMatch then
        exposureMatchInOverlap lc rc0 B.mask_left B.mask_right
          B.out_size_wh.2 B.out_size_wh.1
      else rc0
    if B.both y x then
      toU8 ((lc y x c : ℚ) * B.wL y x + (rc y x c : ℚ) * B.wR y x)
    else if B.onlyL y x then toU8 ((lc y x c : ℚ))
    else if B.onlyR y x then toU8 ((rc y x c : ℚ))
    else 0

/-! ## _estimate_translation_ransac -/

/-- Model of the deterministic pseudo-random generator
np.random.default_rng(seed): a 64-bit linear congruential generator stands
in for the library's PCG64 stream.  Its exact values are irrelevant here;
what matters is that it is a pure function of the explicit seed and the
call index, with no ambient state. -/
def rngLCG (s : ℕ) : ℕ := (6364136223846793005 * s + 1442695040888963407) % (2 ^ 64)

/-- The generator state after the i-th advance from the seed. -/
def rngStateAt (seed : ℕ) : ℕ → ℕ
  | 0 => rngLCG seed
  | n + 1 => rngLCG (rngStateAt seed n)

/-- The i-th value of rng.integers(0, n) drawn from the generator seeded
with seed. -/
def rngDraw (seed i n : ℕ) : ℕ := rngStateAt seed i % n

/-- Inlier flags of a translation hypothesis t: err < 3.0 px, compared in
squared form (err^2 < 9) to stay in exact arithmetic. -/
def inlierFlags (diffs : List (ℚ × ℚ)) (t : ℚ × ℚ) : List Bool :=
  diffs.map fun d => decide ((d.1 - t.1) ^ 2 + (d.2 - t.2) ^ 2 < 9)

/-- One RANSAC iteration: state is (best_count, best_inliers, done); done
records the early exit once a hypothesis covers more than 80 percent of the
matches (0.8 * n compared as 5 * c > 4 * n). -/
def ransacIter (diffs : List (ℚ × ℚ)) (n : ℕ)
    (st : ℤ × Option (List Bool) × Bool) (i : ℕ) : ℤ × Option (List Bool) × Bool :=
  if st.2.2 then st
  else
    let t := diffs.getD (rngDraw 0 i n) (0, 0)
    let inl := inlierFlags diffs t
    let c : ℤ := ((inl.count true : ℕ) : ℤ)
    if st.1 < c then (c, some inl, decide ((5 : ℤ) * c > 4 * (n : ℤ)))
    else st

/-- The 5000-iteration RANSAC loop of _estimate_translation_ransac, run
with the explicitly seeded generator default_rng(0). -/
def ransacRun (diffs : List (ℚ × ℚ)) : ℤ × Option (List Bool) × Bool :=
  (List.range 5000).foldl (ransacIter diffs diffs.length) (-1, none, false)

/-- diffs[best_inliers]: the matched displacements flagged as inliers. -/
def selectInliers (diffs : List (ℚ × ℚ)) (flags : List Bool) : List (ℚ × ℚ) :=
  (diffs.zip flags).filterMap fun p => if p.2 then some p.1 else none

def insertSortedQ (v : ℚ) : List ℚ → List ℚ
  | [] => [v]
  | y :: ys => if v ≤ y then v :: y :: ys else y :: insertSortedQ v ys

def sortQ (l : List ℚ) : List ℚ := l.foldr insertSortedQ []

/-- np.median of a one-dimensional array: middle element of the sorted
list, or the average of the two middle elements for even length. -/
def medianQ (l : List ℚ) : ℚ :=
  if l.length % 2 = 1 then (sortQ l).getD (l.length / 2) 0
  else ((sortQ l).getD (l.length / 2 - 1) 0 + (sortQ l).getD (l.length / 2) 0) / 2

/-- The failure modes of _estimate_translation_ransac (RuntimeErrors in the
source). -/
inductive RansacError where
  | insufficientMatches
  | unstableRansac
deriving DecidableEq

/-- _estimate_translation_ransac on the matched displacement list: requires
at least 12 displacements and at least 8 inliers, then returns the
per-coordinate median translation (standing for the 2x3 matrix
[[1,0,tx],[0,1,ty]]) over the best inlier set together with the best
inlier count. -/
def estimateTranslationRansac (diffs : List (ℚ × ℚ)) :
    Except RansacError ((ℚ × ℚ) × ℤ) :=
  if diffs.length < 12 then .error .insufficientMatches
  else
    match (ransacRun diffs).2.1 with
    | none => .error .unstableRansac
    | some flags =>
      if (ransacRun diffs).1 < 8 then .error .unstableRansac
      else
        .ok ((medianQ ((selectInliers diffs flags).map Prod.fst),
            medianQ ((selectInliers diffs flags).map Prod.snd)),
          (ransacRun diffs).1)

/-! ## Calibration record and its JSON dictionary (Calibration.to_json_dict /
Calibration.from_json_dict) -/

/-- The Calibration dataclass: homographies as exact 3x3 rational matrices
(float32 payloads), out_size_wh, and the metadata fields. -/
structure Calibration where
  H_right_to_left : Matrix (Fin 3) (Fin 3) ℚ
  out_size_wh : ℤ × ℤ
  H_left_to_canvas : Matrix (Fin 3) (Fin 3) ℚ
  H_right_to_canvas : Matrix (Fin 3) (Fin 3) ℚ
  feature : String
  ecc_motion : String
  ecc_cc : Option ℚ

/-- The JSON dictionary produced by Calibration.to_json_dict: matrices as
nested lists (ndarray.tolist), out_size_wh as a two-element list. -/
structure CalibrationJson where
  H_right_to_left : List (List ℚ)
  out_size_wh : List ℤ
  H_left_to_canvas : List (List ℚ)
  H_right_to_canvas : List (List ℚ)
  feature : String
  ecc_motion : String
  ecc_cc : Option ℚ

/-- ndarray.tolist() for a 3x3 matrix. -/
def matToLists (M : Matrix (Fin 3) (Fin 3) ℚ) : List (List ℚ) :=
  [[M 0 0, M 0 1, M 0 2], [M 1 0, M 1 1, M 1 2], [M 2 0, M 2 1, M 2 2]]

/-- np.array(lists, dtype=np.float32) for a well-formed 3x3 nested list
(tolist followed by np.array is exact on float32 data). -/
def listsToMat (l : List (List ℚ)) : Matrix (Fin 3) (Fin 3) ℚ :=
  Matrix.of fun i j => ((l.getD (i : ℕ) []).getD (j : ℕ) 0)

/-- Calibration.to_json_dict. -/
def toJsonDict (c : Calibration) : CalibrationJson :=
  { H_right_to_left := matToLists c.H_right_to_left
    out_size_wh := [c.out_size_wh.1, c.out_size_wh.2]
    H_left_to_canvas := matToLists c.H_left_to_canvas
    H_right_to_canvas := matToLists c.H_right_to_canvas
    feature := c.feature
    ecc_motion := c.ecc_motion
    ecc_cc := c.ecc_cc }

/-- Calibration.from_json_dict (d.get defaults never fire on a dictionary
produced by to_json_dict, whose keys are all present). -/
def fromJsonDict (d : CalibrationJson) : Calibration :=
  { H_right_to_left := listsToMat d.H_right_to_left
    out_size_wh := (d.out_size_wh.getD 0 0, d.out_size_wh.getD 1 0)
    H_left_to_canvas := listsToMat d.H_left_to_canvas
    H_right_to_canvas := listsToMat d.H_right_to_canvas
    feature := d.feature
    ecc_motion := d.ecc_motion
    ecc_cc := d.ecc_cc }

/-! ## Canvas composition in calibrate_two_cameras -/

/-- min_x = min(0, dx_full). -/
def canvasMinX (dx : ℤ) : ℤ := min 0 dx

/-- out_w = max(w, dx_full + w) - min_x (both frames share the checked
width w). -/
def canvasOutW (w : ℕ) (dx : ℤ) : ℤ := max (w : ℤ) (dx + (w : ℤ)) - canvasMinX dx

/-- The left canvas translation, -min_x. -/
def canvasTxL (dx : ℤ) : ℤ := -canvasMinX dx

/-- The right canvas translation, dx_full - min_x. -/
def canvasTxR (dx : ℤ) : ℤ := dx - canvasMinX dx

/-- The Calibration record composed at the end of calibrate_two_cameras for
frames of the common (height-checked) shape h x w and the discovered
full-resolution shift dx. -/
def calibrationOfDx (w h : ℕ) (dx : ℤ) : Calibration :=
  { H_right_to_left := !![1, 0, (dx : ℚ); 0, 1, 0; 0, 0, 1]
    out_size_wh := (canvasOutW w dx, (h : ℤ))
    H_left_to_canvas := !![1, 0, (canvasTxL dx : ℚ); 0, 1, 0; 0, 0, 1]
    H_right_to_canvas := !![1, 0, (canvasTxR dx : ℚ); 0, 1, 0; 0, 0, 1]
    feature := "bruteforce_dx"
    ecc_motion := "translation"
    ecc_cc := none }

/-! ## _estimate_dx_bruteforce -/

/-- min_overlap_w: int(np.ceil(min_overlap_ratio * w)), raised to 1 when
below 1. -/
def minOverlapW (minFrac : ℚ) (w : ℕ) : ℤ :=
  if ⌈minFrac * w⌉ < 1 then 1 else ⌈minFrac * w⌉

/-- max_overlap_w: int(np.clip(np.floor(max_overlap_ratio * w),
min_overlap_w, w)). -/
def maxOverlapW (minFrac maxFrac : ℚ) (w : ℕ) : ℤ :=
  clipZ ⌊maxFrac * w⌋ (minOverlapW minFrac w) w

/-- dx_min / dx_max clamping: int(np.clip(dx, 0, w - 1)). -/
def dxClamped (w : ℕ) (dx : ℤ) : ℤ := clipZ dx 0 ((w : ℤ) - 1)

/-- Step normalization: if dx_step < 1 then dx_step = 1. -/
def dxStepNorm (s : ℤ) : ℤ := if s < 1 then 1 else s

/-- Inverted-range collapse: if dx_max < dx_min (after clamping) then
dx_max = dx_min. -/
def dxMaxCollapsed (w : ℕ) (dxMin dxMax : ℤ) : ℤ :=
  if dxClamped w dxMax < dxClamped w dxMin then dxClamped w dxMin
  else dxClamped w dxMax

/-- Overlap-constrained lower end of the search range:
dx_min = max(dx_min, int(np.clip(w - max_overlap_w, 0, w - 1))). -/
def dxMinConstrained (minFrac maxFrac : ℚ) (w : ℕ) (dxMin : ℤ) : ℤ :=
  max (dxClamped w dxMin) (clipZ ((w : ℤ) - maxOverlapW minFrac maxFrac w) 0 ((w : ℤ) - 1))

/-- Overlap-constrained upper end of the search range:
dx_max = min(dx_max, int(np.clip(w - min_overlap_w, 0, w - 1))). -/
def dxMaxConstrained (minFrac maxFrac : ℚ) (w : ℕ) (dxMin dxMax : ℤ) : ℤ :=
  min (dxMaxCollapsed w dxMin dxMax) (clipZ ((w : ℤ) - minOverlapW minFrac w) 0 ((w : ℤ) - 1))

/-- Sum of absolute differences between left[:, dx:dx+ov] and
right[:, :ov] over an h-row band: float(cv2.absdiff(L, R).sum()). -/
def sumAbsDiff (h : ℕ) (L R : Img1) (dx ov : ℕ) : ℕ :=
  ∑ y ∈ Finset.range h, ∑ x ∈ Finset.range ov,
    ((L y (dx + x) : ℤ) - (R y x : ℤ)).natAbs

/-- Score of a candidate dx: the mean absolute difference over the
overlapping band, scaled by ref_overlap_w / max(1, overlap_w). -/
def dxScore (h w : ℕ) (L R : Img1) (refOv : ℤ) (dx : ℤ) : ℚ :=
  ((sumAbsDiff h L R dx.toNat ((w : ℤ) - dx).toNat : ℚ)
      / max 1 ((h : ℚ) * ((((w : ℤ) - dx) : ℤ) : ℚ)))
    * ((refOv : ℚ) / max 1 ((((w : ℤ) - dx) : ℤ) : ℚ))

/-- The candidate list range(dx_min, dx_max + 1, dx_step) after all
normalization and overlap constraints (meaningful when the constrained
range is non-empty). -/
def dxCands (minFrac maxFrac : ℚ) (w : ℕ) (dxMin dxMax dxStep : ℤ) : List ℤ :=
  (List.range (((dxMaxConstrained minFrac maxFrac w dxMin dxMax
      - dxMinConstrained minFrac maxFrac w dxMin) / dxStepNorm dxStep).toNat + 1)).map
    (fun i : ℕ => dxMinConstrained minFrac maxFrac w dxMin + dxStepNorm dxStep * (i : ℤ))

/-- Best-candidate update: keep the incumbent unless the new score is
strictly smaller (None means no candidate scored yet). -/
def updBest (f : ℤ → ℚ) (best : Option (ℤ × ℚ)) (dx : ℤ) : Option (ℤ × ℚ) :=
  match best with
  | none => some (dx, f dx)
  | some (bd, bs) => if f dx < bs then some (dx, f dx) else some (bd, bs)

/-- The scan loop of _estimate_dx_bruteforce: walk the candidates in order,
break once the overlap drops below min_overlap_w, skip candidates whose
overlap exceeds max_overlap_w, and track the best (smallest) score. -/
def dxLoop (f : ℤ → ℚ) (minW maxW wZ : ℤ) : Option (ℤ × ℚ) → List ℤ → Option (ℤ × ℚ)
  | best, [] => best
  | best, dx :: rest =>
    if wZ - dx < minW then best
    else if maxW < wZ - dx then dxLoop f minW maxW wZ best rest
    else dxLoop f minW maxW wZ (updBest f best dx) rest

/-- The failure modes of _estimate_dx_bruteforce (each a distinct
RuntimeError in the source). -/
inductive DxError where
  | emptySearchRange
  | estimationFailed
deriving DecidableEq

/-- _estimate_dx_bruteforce on two h-by-w match images (the source first
raises on a shape mismatch; the embedding takes a single shared shape). -/
def estimateDxBruteforce (h w : ℕ) (L R : Img1) (minFrac maxFrac : ℚ)
    (dxMin dxMax dxStep : ℤ) : Except DxError (ℤ × ℚ) :=
  if dxMaxConstrained minFrac maxFrac w dxMin dxMax
      < dxMinConstrained minFrac maxFrac w dxMin then
    .error .emptySearchRange
  else
    match dxLoop (dxScore h w L R ((w : ℤ) - dxMinConstrained minFrac maxFrac w dxMin))
        (minOverlapW minFrac w) (maxOverlapW minFrac maxFrac w) (w : ℤ) none
        (dxCands minFrac maxFrac w dxMin dxMax dxStep) with
    | none => .error .estimationFailed
    | some (d, s) => .ok (d, s)

end JoinTwoCamera

namespace JoinTwoCamera

theorem listsToMat_matToLists (M : Matrix (Fin 3) (Fin 3) ℚ) :
    listsToMat (matToLists M) = M := by
  ext i j
  fin_cases i <;> fin_cases j <;> rfl

theorem minOverlapW_pos (minFrac : ℚ) (w : ℕ) : 1 ≤ minOverlapW minFrac w := by
  unfold minOverlapW; split <;> omega

theorem minOverlapW_le (minFrac : ℚ) (w : ℕ) (hfrac : minFrac ≤ 1) (hw : 1 ≤ w) :
    minOverlapW minFrac w ≤ (w : ℤ) := by
  unfold minOverlapW
  split
  · exact_mod_cast hw
  · refine Int.ceil_le.mpr ?_
    push_cast
    exact mul_le_of_le_one_left (by positivity) hfrac

theorem maxOverlapW_le (minFrac maxFrac : ℚ) (w : ℕ) :
    maxOverlapW minFrac maxFrac w ≤ (w : ℤ) := by
  unfold maxOverlapW clipZ; omega

theorem maxOverlapW_pos (minFrac maxFrac : ℚ) (w : ℕ)
    (h : minOverlapW minFrac w ≤ (w : ℤ)) :
    1 ≤ maxOverlapW minFrac maxFrac w := by
  have h1 := minOverlapW_pos minFrac w
  unfold maxOverlapW clipZ; omega

theorem dxStepNorm_pos (s : ℤ) : 1 ≤ dxStepNorm s := by
  unfold dxStepNorm; split <;> omega

theorem mem_range_map_bounds (a b s dx : ℤ) (hs : 1 ≤ s) (hab : a ≤ b)
    (hdx : dx ∈ (List.range (((b - a) / s).toNat + 1)).map (fun i : ℕ => a + s * (i : ℤ))) :
    a ≤ dx ∧ dx ≤ b := by
  obtain ⟨i, hi, rfl⟩ := List.mem_map.mp hdx
  have hin := List.mem_range.mp hi
  have hq0 : 0 ≤ (b - a) / s := Int.ediv_nonneg (by omega) (by omega)
  have hiq : (i : ℤ) ≤ (b - a) / s := by omega
  have hmul : (i : ℤ) * s ≤ b - a := (Int.le_ediv_iff_mul_le (by omega)).mp hiq
  have hmul2 : s * (i : ℤ) ≤ b - a := by rw [mul_comm]; exact hmul
  have hnn : 0 ≤ s * (i : ℤ) := mul_nonneg (by omega) (Int.natCast_nonneg i)
  constructor <;> linarith

theorem dxCands_mem_bounds (minFrac maxFrac : ℚ) (w : ℕ) (dxMin dxMax dxStep dx : ℤ)
    (hne : dxMinConstrained minFrac maxFrac w dxMin
        ≤ dxMaxConstrained minFrac maxFrac w dxMin dxMax)
    (hdx : dx ∈ dxCands minFrac maxFrac w dxMin dxMax dxStep) :
    dxMinConstrained minFrac maxFrac w dxMin ≤ dx ∧
      dx ≤ dxMaxConstrained minFrac maxFrac w dxMin dxMax := by
  unfold dxCands at hdx
  exact mem_range_map_bounds _ _ _ dx (dxStepNorm_pos dxStep) hne hdx

theorem dxMaxConstrained_le (minFrac maxFrac : ℚ) (w : ℕ) (dxMin dxMax : ℤ)
    (hminpos : 1 ≤ minOverlapW minFrac w) (hminle : minOverlapW minFrac w ≤ (w : ℤ)) :
    dxMaxConstrained minFrac maxFrac w dxMin dxMax ≤ (w : ℤ) - minOverlapW minFrac w := by
  unfold dxMaxConstrained clipZ; omega

theorem dxMinConstrained_ge (minFrac maxFrac : ℚ) (w : ℕ) (dxMin : ℤ)
    (hmaxpos : 1 ≤ maxOverlapW minFrac maxFrac w) :
    (w : ℤ) - maxOverlapW minFrac maxFrac w ≤ dxMinConstrained minFrac maxFrac w dxMin := by
  unfold dxMinConstrained clipZ; omega

theorem dxMinConstrained_nonneg (minFrac maxFrac : ℚ) (w : ℕ) (dxMin : ℤ) (hw : 1 ≤ w) :
    0 ≤ dxMinConstrained minFrac maxFrac w dxMin := by
  unfold dxMinConstrained dxClamped clipZ; omega

/-- Every candidate dx in the constrained, normalized range has an overlap
width within [min_overlap_w, max_overlap_w], so the loop's break and
continue tests never fire on it. -/
theorem dxCands_qualify (minFrac maxFrac : ℚ) (w : ℕ) (dxMin dxMax dxStep dx : ℤ)
    (hfrac : minFrac ≤ 1) (hw : 1 ≤ w)
    (hne : dxMinConstrained minFrac maxFrac w dxMin
        ≤ dxMaxConstrained minFrac maxFrac w dxMin dxMax)
    (hdx : dx ∈ dxCands minFrac maxFrac w dxMin dxMax dxStep) :
    minOverlapW minFrac w ≤ (w : ℤ) - dx ∧
      (w : ℤ) - dx ≤ maxOverlapW minFrac maxFrac w := by
  have hminle := minOverlapW_le minFrac w hfrac hw
  have hminpos := minOverlapW_pos minFrac w
  have hmaxpos := maxOverlapW_pos minFrac maxFrac w hminle
  have hb := dxMaxConstrained_le minFrac maxFrac w dxMin dxMax hminpos hminle
  have ha := dxMinConstrained_ge minFrac maxFrac w dxMin hmaxpos
  have hm := dxCands_mem_bounds minFrac maxFrac w dxMin dxMax dxStep dx hne hdx
  omega

theorem dxLoop_eq_foldl (f : ℤ → ℚ) (minW maxW wZ : ℤ) (l : List ℤ)
    (hq : ∀ dx ∈ l, minW ≤ wZ - dx ∧ wZ - dx ≤ maxW) :
    ∀ best, dxLoop f minW maxW wZ best l = l.foldl (updBest f) best := by
  induction l with
  | nil => intro best; rfl
  | cons dx rest ih =>
    intro best
    have h1 := hq dx (List.mem_cons_self _ _)
    show (if wZ - dx < minW then best
        else if maxW < wZ - dx then dxLoop f minW maxW wZ best rest
        else dxLoop f minW maxW wZ (updBest f best dx) rest) = _
    rw [if_neg (by omega), if_neg (by omega)]
    exact ih (fun d hd => hq d (List.mem_cons_of_mem _ hd)) _

theorem foldl_updBest_spec (f : ℤ → ℚ) (l : List ℤ) :
    ∀ p : ℤ × ℚ, p.2 = f p.1 →
      ∃ q : ℤ × ℚ, l.foldl (updBest f) (some p) = some q ∧ q.2 = f q.1 ∧
        (q = p ∨ q.1 ∈ l) ∧ q.2 ≤ p.2 ∧ ∀ d ∈ l, q.2 ≤ f d := by
  induction l with
  | nil =>
    intro p hp
    exact ⟨p, rfl, hp, Or.inl rfl, le_refl _, by simp⟩
  | cons dx rest ih =>
    rintro ⟨pd, ps⟩ hp
    simp only at hp
    have hstep : List.foldl (updBest f) (some (pd, ps)) (dx :: rest)
        = List.foldl (updBest f)
            (if f dx < ps then some (dx, f dx) else some (pd, ps)) rest := by
      simp [updBest]
    by_cases hlt : f dx < ps
    · rw [hstep, if_pos hlt]
      obtain ⟨q, hq1, hq2, hq3, hq4, hq5⟩ := ih (dx, f dx) rfl
      refine ⟨q, hq1, hq2, ?_, ?_, ?_⟩
      · rcases hq3 with h | h
        · exact Or.inr (by rw [h]; exact List.mem_cons_self _ _)
        · exact Or.inr (List.mem_cons_of_mem _ h)
      · exact le_of_lt (lt_of_le_of_lt hq4 hlt)
      · intro d hd
        rcases List.mem_cons.mp hd with h | h
        · rw [h]; exact hq4
        · exact hq5 d h
    · rw [hstep, if_neg hlt]
      obtain ⟨q, hq1, hq2, hq3, hq4, hq5⟩ := ih (pd, ps) hp
      refine ⟨q, hq1, hq2, ?_, hq4, ?_⟩
      · rcases hq3 with h | h
        · exact Or.inl h
        · exact Or.inr (List.mem_cons_of_mem _ h)
      · intro d hd
        rcases List.mem_cons.mp hd with h | h
        · rw [h]; exact le_trans hq4 (not_lt.mp hlt)
        · exact hq5 d h

theorem dxCands_cons (minFrac maxFrac : ℚ) (w : ℕ) (dxMin dxMax dxStep : ℤ) :
    ∃ rest, dxCands minFrac maxFrac w dxMin dxMax dxStep
      = dxMinConstrained minFrac maxFrac w dxMin :: rest := by
  refine ⟨(List.range (((dxMaxConstrained minFrac maxFrac w dxMin dxMax
      - dxMinConstrained minFrac maxFrac w dxMin) / dxStepNorm dxStep).toNat)).map
      ((fun i : ℕ => dxMinConstrained minFrac maxFrac w dxMin
        + dxStepNorm dxStep * (i : ℤ)) ∘ Nat.succ), ?_⟩
  unfold dxCands
  rw [List.range_succ_eq_map, List.map_cons, List.map_map]
  simp

/-- Core success case shared by the C1 and (amended) C7 theorems: a
non-empty constrained range with a sensible minimum overlap fraction makes
the search return the first minimum-score candidate. -/
theorem estimateDx_ok_core (h w : ℕ) (L R : Img1) (minFrac maxFrac : ℚ)
    (dxMin dxMax dxStep : ℤ) (hfrac : minFrac ≤ 1) (hw : 1 ≤ w)
    (hne : dxMinConstrained minFrac maxFrac w dxMin
        ≤ dxMaxConstrained minFrac maxFrac w dxMin dxMax) :
    ∃ d s, estimateDxBruteforce h w L R minFrac maxFrac dxMin dxMax dxStep = .ok (d, s) ∧
      d ∈ dxCands minFrac maxFrac w dxMin dxMax dxStep ∧
      s = dxScore h w L R ((w : ℤ) - dxMinConstrained minFrac maxFrac w dxMin) d ∧
      ∀ d' ∈ dxCands minFrac maxFrac w dxMin dxMax dxStep,
        s ≤ dxScore h w L R ((w : ℤ) - dxMinConstrained minFrac maxFrac w dxMin) d' := by
  have hqual := fun dx hdx =>
    dxCands_qualify minFrac maxFrac w dxMin dxMax dxStep dx hfrac hw hne hdx
  obtain ⟨rest, hcons⟩ := dxCands_cons minFrac maxFrac w dxMin dxMax dxStep
  set a := dxMinConstrained minFrac maxFrac w dxMin with ha
  set f := dxScore h w L R ((w : ℤ) - a) with hf
  have hloop := dxLoop_eq_foldl f (minOverlapW minFrac w)
      (maxOverlapW minFrac maxFrac w) (w : ℤ)
      (dxCands minFrac maxFrac w dxMin dxMax dxStep) hqual none
  rw [hcons] at hloop
  have hfold : List.foldl (updBest f) none (a :: rest)
      = List.foldl (updBest f) (some (a, f a)) rest := by
    simp [updBest]
  obtain ⟨q, hq1, hq2, hq3, hq4, hq5⟩ := foldl_updBest_spec f rest (a, f a) rfl
  refine ⟨q.1, q.2, ?_, ?_, hq2, ?_⟩
  · unfold estimateDxBruteforce
    rw [if_neg (not_lt.mpr hne), ← ha, ← hf, hcons, hloop, hfold, hq1]
  · rw [hcons]
    rcases hq3 with hh | hh
    · rw [hh]; exact List.mem_cons_self _ _
    · exact List.mem_cons_of_mem _ hh
  · intro d' hd'
    rw [hcons] at hd'
    rcases List.mem_cons.mp hd' with hh | hh
    · rw [hh]; exact hq4
    · exact hq5 d' hh

/-- Claim C1: with a non-empty constrained search range (and an overlap
fraction that is a genuine fraction, min_overlap_ratio ≤ 1, on a non-empty
image), the brute-force overlap search returns a candidate dx of the
constrained range whose score — the mean absolute difference over the
overlapping bands scaled by ref_overlap_w / max(1, overlap_w), where
ref_overlap_w is the overlap at the smallest constrained dx — is minimal
over all candidates. -/
theorem bruteforce_dx_returns_min_score (h w : ℕ) (L R : Img1)
    (minFrac maxFrac : ℚ) (dxMin dxMax dxStep : ℤ)
    (hfrac : minFrac ≤ 1) (hw : 1 ≤ w)
    (hne : dxMinConstrained minFrac maxFrac w dxMin
        ≤ dxMaxConstrained minFrac maxFrac w dxMin dxMax) :
    ∃ d s, estimateDxBruteforce h w L R minFrac maxFrac dxMin dxMax dxStep = .ok (d, s) ∧
      d ∈ dxCands minFrac maxFrac w dxMin dxMax dxStep ∧
      s = dxScore h w L R ((w : ℤ) - dxMinConstrained minFrac maxFrac w dxMin) d ∧
      ∀ d' ∈ dxCands minFrac maxFrac w dxMin dxMax dxStep,
        s ≤ dxScore h w L R ((w : ℤ) - dxMinConstrained minFrac maxFrac w dxMin) d' :=
  estimateDx_ok_core h w L R minFrac maxFrac dxMin dxMax dxStep hfrac hw hne

/-- Witness for C1 at a concrete configuration (w = 10, overlap fractions
1/5 and 1/2, caller range [0, 9] with step 2, all-zero match images). -/
theorem bruteforce_dx_returns_min_score_witness :
    ((1 : ℚ)/5 ≤ 1) ∧ (1 ≤ 10) ∧
      (dxMinConstrained (1/5) (1/2) 10 0 ≤ dxMaxConstrained (1/5) (1/2) 10 0 9) ∧
      (∃ d s, estimateDxBruteforce 1 10 (fun _ _ => 0) (fun _ _ => 0)
          (1/5) (1/2) 0 9 2 = .ok (d, s) ∧
        d ∈ dxCands (1/5) (1/2) 10 0 9 2 ∧
        s = dxScore 1 10 (fun _ _ => 0) (fun _ _ => 0)
          ((10 : ℤ) - dxMinConstrained (1/5) (1/2) 10 0) d ∧
        ∀ d' ∈ dxCands (1/5) (1/2) 10 0 9 2,
          s ≤ dxScore 1 10 (fun _ _ => 0) (fun _ _ => 0)
            ((10 : ℤ) - dxMinConstrained (1/5) (1/2) 10 0) d') :=
  ⟨by norm_num, by norm_num,
    by norm_num [dxMinConstrained, dxMaxConstrained, dxMaxCollapsed, dxClamped,
      clipZ, minOverlapW, maxOverlapW, dxStepNorm],
    bruteforce_dx_returns_min_score 1 10 (fun _ _ => 0) (fun _ _ => 0)
      (1/5) (1/2) 0 9 2 (by norm_num) (by norm_num)
      (by norm_num [dxMinConstrained, dxMaxConstrained, dxMaxCollapsed, dxClamped,
        clipZ, minOverlapW, maxOverlapW, dxStepNorm])⟩

theorem dxLoop_break_head (f : ℤ → ℚ) (minW maxW wZ dx : ℤ) (rest : List ℤ)
    (best : Option (ℤ × ℚ)) (hbr : wZ - dx < minW) :
    dxLoop f minW maxW wZ best (dx :: rest) = best := by
  show (if wZ - dx < minW then best
      else if maxW < wZ - dx then dxLoop f minW maxW wZ best rest
      else dxLoop f minW maxW wZ (updBest f best dx) rest) = best
  rw [if_pos hbr]

/-- Claim C7 (amended): the brute-force search fails with EmptySearchRange
exactly when the overlap-constrained range is empty; on a non-empty range it
either returns a dx (whenever the minimum overlap width fits the image — in
particular there is no minimum candidate count) or, when the minimum
overlap width exceeds the image width, stops before scoring any candidate
and fails with EstimationFailed; errors never return a dx (enforced by the
Except result type). -/
theorem dx_bruteforce_error_policy (h w : ℕ) (L R : Img1) (minFrac maxFrac : ℚ)
    (dxMin dxMax dxStep : ℤ) :
    (dxMaxConstrained minFrac maxFrac w dxMin dxMax
        < dxMinConstrained minFrac maxFrac w dxMin →
      estimateDxBruteforce h w L R minFrac maxFrac dxMin dxMax dxStep
        = .error .emptySearchRange) ∧
    (dxMinConstrained minFrac maxFrac w dxMin
        ≤ dxMaxConstrained minFrac maxFrac w dxMin dxMax →
      minFrac ≤ 1 → 1 ≤ w →
      ∃ d s, estimateDxBruteforce h w L R minFrac maxFrac dxMin dxMax dxStep
        = .ok (d, s)) ∧
    (dxMinConstrained minFrac maxFrac w dxMin
        ≤ dxMaxConstrained minFrac maxFrac w dxMin dxMax →
      1 ≤ w → (w : ℤ) < minOverlapW minFrac w →
      estimateDxBruteforce h w L R minFrac maxFrac dxMin dxMax dxStep
        = .error .estimationFailed) := by
  refine ⟨?_, ?_, ?_⟩
  · intro hlt
    unfold estimateDxBruteforce
    rw [if_pos hlt]
  · intro hne hfrac hw
    obtain ⟨d, s, hok, -, -, -⟩ :=
      estimateDx_ok_core h w L R minFrac maxFrac dxMin dxMax dxStep hfrac hw hne
    exact ⟨d, s, hok⟩
  · intro hne hw hbig
    obtain ⟨rest, hcons⟩ := dxCands_cons minFrac maxFrac w dxMin dxMax dxStep
    have ha0 := dxMinConstrained_nonneg minFrac maxFrac w dxMin hw
    have hbreak := dxLoop_break_head
      (dxScore h w L R ((w : ℤ) - dxMinConstrained minFrac maxFrac w dxMin))
      (minOverlapW minFrac w) (maxOverlapW minFrac maxFrac w) (w : ℤ)
      (dxMinConstrained minFrac maxFrac w dxMin) rest none (by omega)
    unfold estimateDxBruteforce
    rw [if_neg (not_lt.mpr hne), hcons, hbreak]

/-- Counterexample to C7 as stated: a configuration whose constrained range
holds a single candidate (fewer than 3) on which the search succeeds and
returns that dx, instead of failing with an AggregationTooSmall error (no
such error exists in the code). -/
theorem dx_bruteforce_single_candidate_succeeds :
    dxCands (1/10) 1 10 5 5 1 = [5] ∧
      estimateDxBruteforce 1 10 (fun _ _ => 0) (fun _ _ => 0) (1/10) 1 5 5 1
        = .ok (5, 0) := by
  constructor
  · norm_num [dxCands, dxMinConstrained, dxMaxConstrained, dxMaxCollapsed,
      dxClamped, clipZ, minOverlapW, maxOverlapW, dxStepNorm, List.range_succ]
  · norm_num [estimateDxBruteforce, dxCands, dxLoop, updBest, dxScore, sumAbsDiff,
      dxMinConstrained, dxMaxConstrained, dxMaxCollapsed, dxClamped, clipZ,
      minOverlapW, maxOverlapW, dxStepNorm, List.range_succ]

/-- Witness for the amended C7: a caller dx range [0, 0] outside the
overlap-permitted band makes the constrained range empty, and the search
reports EmptySearchRange. -/
theorem dx_bruteforce_error_policy_witness :
    estimateDxBruteforce 1 10 (fun _ _ => 0) (fun _ _ => 0) (1/5) (1/2) 0 0 1
      = .error .emptySearchRange :=
  (dx_bruteforce_error_policy 1 10 (fun _ _ => 0) (fun _ _ => 0) (1/5) (1/2) 0 0 1).1
    (by norm_num [dxMinConstrained, dxMaxConstrained, dxMaxCollapsed, dxClamped,
      clipZ, minOverlapW, maxOverlapW, dxStepNorm])

theorem dxClamped_idem (w : ℕ) (dx : ℤ) :
    dxClamped w (dxClamped w dx) = dxClamped w dx := by
  unfold dxClamped clipZ; omega

theorem dxStepNorm_idem (s : ℤ) : dxStepNorm (dxStepNorm s) = dxStepNorm s := by
  have := dxStepNorm_pos s
  unfold dxStepNorm
  split <;> omega

theorem dxMinConstrained_clamp (minFrac maxFrac : ℚ) (w : ℕ) (dxMin : ℤ) :
    dxMinConstrained minFrac maxFrac w (dxClamped w dxMin)
      = dxMinConstrained minFrac maxFrac w dxMin := by
  unfold dxMinConstrained
  rw [dxClamped_idem]

theorem dxMaxCollapsed_clamp (w : ℕ) (dxMin dxMax : ℤ) :
    dxMaxCollapsed w (dxClamped w dxMin) (dxClamped w dxMax)
      = dxMaxCollapsed w dxMin dxMax := by
  unfold dxMaxCollapsed
  rw [dxClamped_idem, dxClamped_idem]

theorem dxMaxConstrained_clamp (minFrac maxFrac : ℚ) (w : ℕ) (dxMin dxMax : ℤ) :
    dxMaxConstrained minFrac maxFrac w (dxClamped w dxMin) (dxClamped w dxMax)
      = dxMaxConstrained minFrac maxFrac w dxMin dxMax := by
  unfold dxMaxConstrained
  rw [dxMaxCollapsed_clamp]

theorem dxCands_norm (minFrac maxFrac : ℚ) (w : ℕ) (dxMin dxMax dxStep : ℤ) :
    dxCands minFrac maxFrac w (dxClamped w dxMin) (dxClamped w dxMax)
        (dxStepNorm dxStep)
      = dxCands minFrac maxFrac w dxMin dxMax dxStep := by
  unfold dxCands
  rw [dxMinConstrained_clamp, dxMaxConstrained_clamp, dxStepNorm_idem]

/-- Claim C10: the brute-force search silently normalizes its dx parameters
rather than rejecting them — dx_min and dx_max are clamped into [0, w-1], a
step below 1 behaves as step 1, an inverted caller range collapses to the
single candidate dx_min (the pre-constraint range is never empty), the whole
search is invariant under this normalization, and the EmptySearchRange
failure happens exactly when the overlap constraint empties the range. -/
theorem dx_bruteforce_normalizes_params (h w : ℕ) (L R : Img1)
    (minFrac maxFrac : ℚ) (dxMin dxMax dxStep : ℤ) :
    (1 ≤ w → 0 ≤ dxClamped w dxMin ∧ dxClamped w dxMin ≤ (w : ℤ) - 1 ∧
      0 ≤ dxClamped w dxMax ∧ dxClamped w dxMax ≤ (w : ℤ) - 1) ∧
    (dxStep < 1 →
      estimateDxBruteforce h w L R minFrac maxFrac dxMin dxMax dxStep
        = estimateDxBruteforce h w L R minFrac maxFrac dxMin dxMax 1) ∧
    (dxClamped w dxMax < dxClamped w dxMin →
      dxMaxCollapsed w dxMin dxMax = dxClamped w dxMin) ∧
    dxClamped w dxMin ≤ dxMaxCollapsed w dxMin dxMax ∧
    (estimateDxBruteforce h w L R minFrac maxFrac dxMin dxMax dxStep
        = .error .emptySearchRange ↔
      dxMaxConstrained minFrac maxFrac w dxMin dxMax
        < dxMinConstrained minFrac maxFrac w dxMin) ∧
    estimateDxBruteforce h w L R minFrac maxFrac dxMin dxMax dxStep
      = estimateDxBruteforce h w L R minFrac maxFrac (dxClamped w dxMin)
          (dxClamped w dxMax) (dxStepNorm dxStep) := by
  refine ⟨?_, ?_, ?_, ?_, ?_, ?_⟩
  · intro hw
    unfold dxClamped clipZ
    omega
  · intro hstep
    have hs : dxStepNorm dxStep = dxStepNorm 1 := by
      unfold dxStepNorm
      rw [if_pos hstep, if_neg (lt_irrefl 1)]
    unfold estimateDxBruteforce dxCands
    rw [hs]
  · intro hlt
    unfold dxMaxCollapsed
    rw [if_pos hlt]
  · unfold dxMaxCollapsed
    split <;> omega
  · by_cases hlt : dxMaxConstrained minFrac maxFrac w dxMin dxMax
        < dxMinConstrained minFrac maxFrac w dxMin
    · refine ⟨fun _ => hlt, fun _ => ?_⟩
      unfold estimateDxBruteforce
      rw [if_pos hlt]
    · refine ⟨fun heq => ?_, fun hcontra => absurd hcontra hlt⟩
      exfalso
      unfold estimateDxBruteforce at heq
      rw [if_neg hlt] at heq
      rcases hres : dxLoop (dxScore h w L R
            ((w : ℤ) - dxMinConstrained minFrac maxFrac w dxMin))
          (minOverlapW minFrac w) (maxOverlapW minFrac maxFrac w) (w : ℤ) none
          (dxCands minFrac maxFrac w dxMin dxMax dxStep) with
        _ | p
      · rw [hres] at heq
        exact DxError.noConfusion (Except.error.inj heq)
      · rw [hres] at heq
        exact Except.noConfusion heq
  · unfold estimateDxBruteforce
    rw [dxMinConstrained_clamp, dxMaxConstrained_clamp, dxCands_norm]

/-- Witness for C10 at a concrete configuration: dx_min = -5 and
dx_max = 20 on a width-10 image are clamped into [0, 9]. -/
theorem dx_bruteforce_normalizes_params_witness :
    0 ≤ dxClamped 10 (-5) ∧ dxClamped 10 (-5) ≤ (10 : ℤ) - 1 ∧
      0 ≤ dxClamped 10 20 ∧ dxClamped 10 20 ≤ (10 : ℤ) - 1 :=
  (dx_bruteforce_normalizes_params 1 10 (fun _ _ => 0) (fun _ _ => 0)
    (1/5) (1/2) (-5) 20 1).1 (by norm_num)

theorem toU8_le_255 (v : ℚ) : toU8 v ≤ 255 := by
  have h1 : clipQ v 0 255 ≤ 255 := min_le_right _ _
  have h2 : ⌊clipQ v 0 255⌋ ≤ (255 : ℤ) := by
    have := Int.floor_le_floor h1
    simpa using this
  unfold toU8
  omega

theorem toU8_natCast (n : ℕ) (h : n ≤ 255) : toU8 ((n : ℚ)) = n := by
  unfold toU8 clipQ
  rw [max_eq_left (by positivity), min_eq_left (by exact_mod_cast h)]
  rw [Int.floor_natCast]
  exact Int.toNat_natCast n

theorem warp3_le (h w : ℕ) (tx ty : ℤ) (img : Img3)
    (hb : ∀ y x c, img y x c ≤ 255) (y x c : ℕ) :
    warp3 h w tx ty img y x c ≤ 255 := by
  unfold warp3
  split
  · exact hb _ _ _
  · omega

theorem exposureMatchInOverlap_le (lc rc : Img3) (mkL mkR : Img1) (outH outW : ℕ)
    (hb : ∀ y x c, rc y x c ≤ 255) (y x c : ℕ) :
    exposureMatchInOverlap lc rc mkL mkR outH outW y x c ≤ 255 := by
  unfold exposureMatchInOverlap
  split
  · exact hb _ _ _
  · exact toU8_le_255 _

theorem onlyL_both_false (mkL mkR : Img1) (y x : ℕ)
    (h : onlyLMask mkL mkR y x = true) : bothMask mkL mkR y x = false := by
  cases hb : maskPos mkR y x <;> simp [onlyLMask, bothMask, hb] at h ⊢

theorem onlyR_both_false (mkL mkR : Img1) (y x : ℕ)
    (h : onlyRMask mkL mkR y x = true) : bothMask mkL mkR y x = false := by
  cases hb : maskPos mkL y x <;> simp [onlyRMask, bothMask, hb] at h ⊢

theorem onlyR_onlyL_false (mkL mkR : Img1) (y x : ℕ)
    (h : onlyRMask mkL mkR y x = true) : onlyLMask mkL mkR y x = false := by
  cases hb : maskPos mkL y x <;> simp [onlyRMask, onlyLMask, hb] at h ⊢

/-- The per-pixel partition and weight facts C2 asserts of a built
BlendContext. -/
def blendPartitionAt (B : BlendContext) (y x : ℕ) : Prop :=
  (¬(B.both y x = true ∧ B.onlyL y x = true)) ∧
  (¬(B.both y x = true ∧ B.onlyR y x = true)) ∧
  (¬(B.onlyL y x = true ∧ B.onlyR y x = true)) ∧
  ((B.both y x = true ∨ B.onlyL y x = true ∨ B.onlyR y x = true) ↔
    (0 < B.mask_left y x ∨ 0 < B.mask_right y x)) ∧
  (B.both y x = true →
    B.wL y x + B.wR y x = 1 ∧ |B.wL y x + B.wR y x - 1| ≤ 1/100000)

/-- Claim C2: every canvas pixel of a built BlendContext falls in exactly
one of overlap / left-only / right-only / neither (the three region masks
are pairwise disjoint and cover exactly the union of the two warped masks),
and on the overlap the feather weights sum to 1 — exactly, hence in
particular within the 1e-5 tolerance. -/
theorem blend_context_partition (dt : Img1 → Img1Q) (hL wLd hR wRd : ℕ)
    (txL tyL txR tyR : ℤ) (outW outH : ℕ) (y x : ℕ) :
    blendPartitionAt
      (buildBlendContext dt hL wLd hR wRd txL tyL txR tyR outW outH) y x := by
  unfold blendPartitionAt buildBlendContext
  set mkL := warp1 hL wLd txL tyL (fun _ _ => 255) with hmkL
  set mkR := warp1 hR wRd txR tyR (fun _ _ => 255) with hmkR
  refine ⟨?_, ?_, ?_, ?_, ?_⟩
  · cases hl : maskPos mkL y x <;> cases hr : maskPos mkR y x <;>
      simp [bothMask, onlyLMask, hl, hr]
  · cases hl : maskPos mkL y x <;> cases hr : maskPos mkR y x <;>
      simp [bothMask, onlyRMask, hl, hr]
  · cases hl : maskPos mkL y x <;> cases hr : maskPos mkR y x <;>
      simp [onlyLMask, onlyRMask, hl, hr]
  · cases hl : maskPos mkL y x <;> cases hr : maskPos mkR y x <;>
      simp_all [bothMask, onlyLMask, onlyRMask, maskPos]
  · intro _
    have hsum : weightL dt outH outW mkL mkR y x
        + weightR dt outH outW mkL mkR y x = 1 := by
      by_cases hany : bothAny outH outW mkL mkR <;>
        simp [weightL, weightR, hany]
    exact ⟨hsum, by rw [hsum]; norm_num⟩

/-- Witness for C2 at a concrete context (unit frames placed at the origin,
a constant distance transform, a 1-by-1 canvas). -/
theorem blend_context_partition_witness :
    blendPartitionAt
      (buildBlendContext (fun _ _ _ => 0) 1 1 1 1 0 0 0 0 1 1) 0 0 :=
  blend_context_partition (fun _ _ _ => 0) 1 1 1 1 0 0 0 0 1 1 0 0

theorem maskPos_eq_false_of_zero (mk : Img1) (y x : ℕ) (h : mk y x = 0) :
    maskPos mk y x = false := by
  simp [maskPos, h]

theorem render_at_onlyL (hLf wLf hRf wRf : ℕ) (frameL frameR : Img3)
    (txL tyL txR tyR : ℤ) (B : BlendContext) (em : Bool) (y x c : ℕ)
    (hboth : B.both y x = false) (honly : B.onlyL y x = true)
    (hbL : ∀ y x c, frameL y x c ≤ 255) :
    renderJoinedFrameWithContext hLf wLf hRf wRf frameL frameR txL tyL txR tyR
      B em y x c = warp3 hLf wLf txL tyL frameL y x c := by
  unfold renderJoinedFrameWithContext
  simp only [hboth, honly]
  simp only [Bool.false_eq_true, if_false, if_true]
  exact toU8_natCast _ (warp3_le hLf wLf txL tyL frameL hbL y x c)

theorem render_at_onlyR (hLf wLf hRf wRf : ℕ) (frameL frameR : Img3)
    (txL tyL txR tyR : ℤ) (B : BlendContext) (em : Bool) (y x c : ℕ)
    (hboth : B.both y x = false) (honlyL : B.onlyL y x = false)
    (honlyR : B.onlyR y x = true)
    (hbR : ∀ y x c, frameR y x c ≤ 255) :
    renderJoinedFrameWithContext hLf wLf hRf wRf frameL frameR txL tyL txR tyR
      B em y x c
      = (if em then
          exposureMatchInOverlap (warp3 hLf wLf txL tyL frameL)
            (warp3 hRf wRf txR tyR frameR) B.mask_left B.mask_right
            B.out_size_wh.2 B.out_size_wh.1
        else warp3 hRf wRf txR tyR frameR) y x c := by
  unfold renderJoinedFrameWithContext
  simp only [hboth, honlyL, honlyR]
  simp only [Bool.false_eq_true, if_false, if_true]
  cases em with
  | false =>
    simp only [Bool.false_eq_true, if_false]
    exact toU8_natCast _ (warp3_le hRf wRf txR tyR frameR hbR y x c)
  | true =>
    simp only [if_true]
    exact toU8_natCast _
      (exposureMatchInOverlap_le _ _ _ _ _ _
        (warp3_le hRf wRf txR tyR frameR hbR) y x c)

theorem render_at_neither (hLf wLf hRf wRf : ℕ) (frameL frameR : Img3)
    (txL tyL txR tyR : ℤ) (B : BlendContext) (em : Bool) (y x c : ℕ)
    (hboth : B.both y x = false) (honlyL : B.onlyL y x = false)
    (honlyR : B.onlyR y x = false) :
    renderJoinedFrameWithContext hLf wLf hRf wRf frameL frameR txL tyL txR tyR
      B em y x c = 0 := by
  unfold renderJoinedFrameWithContext
  simp only [hboth, honlyL, honlyR]
  simp only [Bool.false_eq_true, if_false]

/-- Claim C3: at a left-only pixel the composite equals the warped left
canvas value exactly (no blending and no exposure gain ever touches the
left canvas), at a right-only pixel it equals the right canvas value used
for compositing (the exposure-matched right canvas when exposure matching
is on, the plain warp otherwise), and at a pixel covered by neither warped
mask it is 0 (black). -/
theorem render_exclusive_region_fidelity (dt : Img1 → Img1Q)
    (hL wLd hR wRd : ℕ) (txL tyL txR tyR : ℤ) (outW outH : ℕ)
    (hLf wLf hRf wRf : ℕ) (frameL frameR : Img3) (em : Bool) (y x c : ℕ)
    (hbL : ∀ y x c, frameL y x c ≤ 255) (hbR : ∀ y x c, frameR y x c ≤ 255) :
    ((buildBlendContext dt hL wLd hR wRd txL tyL txR tyR outW outH).onlyL y x = true →
      renderJoinedFrameWithContext hLf wLf hRf wRf frameL frameR txL tyL txR tyR
        (buildBlendContext dt hL wLd hR wRd txL tyL txR tyR outW outH) em y x c
        = warp3 hLf wLf txL tyL frameL y x c) ∧
    ((buildBlendContext dt hL wLd hR wRd txL tyL txR tyR outW outH).onlyR y x = true →
      renderJoinedFrameWithContext hLf wLf hRf wRf frameL frameR txL tyL txR tyR
        (buildBlendContext dt hL wLd hR wRd txL tyL txR tyR outW outH) em y x c
        = (if em then
            exposureMatchInOverlap (warp3 hLf wLf txL tyL frameL)
              (warp3 hRf wRf txR tyR frameR)
              (buildBlendContext dt hL wLd hR wRd txL tyL txR tyR outW outH).mask_left
              (buildBlendContext dt hL wLd hR wRd txL tyL txR tyR outW outH).mask_right
              outH outW
          else warp3 hRf wRf txR tyR frameR) y x c) ∧
    ((buildBlendContext dt hL wLd hR wRd txL tyL txR tyR outW outH).mask_left y x = 0 →
      (buildBlendContext dt hL wLd hR wRd txL tyL txR tyR outW outH).mask_right y x = 0 →
      renderJoinedFrameWithContext hLf wLf hRf wRf frameL frameR txL tyL txR tyR
        (buildBlendContext dt hL wLd hR wRd txL tyL txR tyR outW outH) em y x c = 0) := by
  refine ⟨?_, ?_, ?_⟩
  · intro honly
    exact render_at_onlyL hLf wLf hRf wRf frameL frameR txL tyL txR tyR _ em y x c
      (onlyL_both_false _ _ y x honly) honly hbL
  · intro honly
    exact render_at_onlyR hLf wLf hRf wRf frameL frameR txL tyL txR tyR _ em y x c
      (onlyR_both_false _ _ y x honly) (onlyR_onlyL_false _ _ y x honly) honly hbR
  · intro hml hmr
    have hl := maskPos_eq_false_of_zero _ y x hml
    have hr := maskPos_eq_false_of_zero _ y x hmr
    exact render_at_neither hLf wLf hRf wRf frameL frameR txL tyL txR tyR _ em y x c
      (by simp [buildBlendContext, bothMask] at hl hr ⊢; simp [hl])
      (by simp [buildBlendContext, onlyLMask] at hl hr ⊢; simp [hl])
      (by simp [buildBlendContext, onlyRMask] at hl hr ⊢; simp [hr])

theorem bothAny_eq_false_iff (outH outW : ℕ) (mkL mkR : Img1) :
    bothAny outH outW mkL mkR = false ↔
      ∀ y < outH, ∀ x < outW, bothMask mkL mkR y x = false := by
  simp [bothAny, List.mem_range]

theorem bothPixels_eq_nil_iff (outH outW : ℕ) (mkL mkR : Img1) :
    bothPixels outH outW mkL mkR = [] ↔
      ∀ y < outH, ∀ x < outW, bothMask mkL mkR y x = false := by
  simp [bothPixels, List.filter_eq_nil_iff, List.mem_range]

/-- Claim C9 (implicit): when the two warped masks share no canvas pixel
build_blend_context does not fail but falls back to weight_left = 1 and
weight_right = 0 at every canvas pixel, exposure matching leaves the right
canvas untouched, and the renderer copies each camera's pixels into its
exclusive region with every remaining canvas pixel black. -/
theorem blend_empty_overlap_defaults (dt : Img1 → Img1Q)
    (hL wLd hR wRd : ℕ) (txL tyL txR tyR : ℤ) (outW outH : ℕ)
    (hLf wLf hRf wRf : ℕ) (frameL frameR : Img3) (em : Bool) (y x c : ℕ)
    (hempty : ∀ yy < outH, ∀ xx < outW,
      bothMask (warp1 hL wLd txL tyL (fun _ _ => 255))
        (warp1 hR wRd txR tyR (fun _ _ => 255)) yy xx = false)
    (hbL : ∀ y x c, frameL y x c ≤ 255) (hbR : ∀ y x c, frameR y x c ≤ 255) :
    (buildBlendContext dt hL wLd hR wRd txL tyL txR tyR outW outH).wL y x = 1 ∧
    (buildBlendContext dt hL wLd hR wRd txL tyL txR tyR outW outH).wR y x = 0 ∧
    ((buildBlendContext dt hL wLd hR wRd txL tyL txR tyR outW outH).onlyL y x = true →
      renderJoinedFrameWithContext hLf wLf hRf wRf frameL frameR txL tyL txR tyR
        (buildBlendContext dt hL wLd hR wRd txL tyL txR tyR outW outH) em y x c
        = warp3 hLf wLf txL tyL frameL y x c) ∧
    ((buildBlendContext dt hL wLd hR wRd txL tyL txR tyR outW outH).onlyR y x = true →
      renderJoinedFrameWithContext hLf wLf hRf wRf frameL frameR txL tyL txR tyR
        (buildBlendContext dt hL wLd hR wRd txL tyL txR tyR outW outH) em y x c
        = warp3 hRf wRf txR tyR frameR y x c) ∧
    (y < outH → x < outW →
      (buildBlendContext dt hL wLd hR wRd txL tyL txR tyR outW outH).onlyL y x = false →
      (buildBlendContext dt hL wLd hR wRd txL tyL txR tyR outW outH).onlyR y x = false →
      renderJoinedFrameWithContext hLf wLf hRf wRf frameL frameR txL tyL txR tyR
        (buildBlendContext dt hL wLd hR wRd txL tyL txR tyR outW outH) em y x c = 0) := by
  set mkL := warp1 hL wLd txL tyL (fun _ _ => 255) with hmkL
  set mkR := warp1 hR wRd txR tyR (fun _ _ => 255) with hmkR
  have hany : bothAny outH outW mkL mkR = false :=
    (bothAny_eq_false_iff outH outW mkL mkR).mpr hempty
  have hnil : bothPixels outH outW mkL mkR = [] :=
    (bothPixels_eq_nil_iff outH outW mkL mkR).mpr hempty
  have hexpid : exposureMatchInOverlap (warp3 hLf wLf txL tyL frameL)
      (warp3 hRf wRf txR tyR frameR) mkL mkR outH outW
      = warp3 hRf wRf txR tyR frameR := by
    unfold exposureMatchInOverlap
    rw [if_pos (by rw [hnil]; rfl)]
  refine ⟨?_, ?_, ?_, ?_, ?_⟩
  · simp [buildBlendContext, weightL, hany]
  · simp [buildBlendContext, weightR, hany]
  · intro honly
    exact render_at_onlyL hLf wLf hRf wRf frameL frameR txL tyL txR tyR _ em y x c
      (onlyL_both_false _ _ y x honly) honly hbL
  · intro honly
    have h := render_at_onlyR hLf wLf hRf wRf frameL frameR txL tyL txR tyR
      (buildBlendContext dt hL wLd hR wRd txL tyL txR tyR outW outH) em y x c
      (onlyR_both_false _ _ y x honly) (onlyR_onlyL_false _ _ y x honly) honly hbR
    rw [h]
    cases em with
    | false => rfl
    | true =>
      show exposureMatchInOverlap _ _ mkL mkR outH outW y x c = _
      rw [hexpid]
  · intro hy hx honlyL honlyR
    exact render_at_neither hLf wLf hRf wRf frameL frameR txL tyL txR tyR _ em y x c
      (hempty y hy x hx) honlyL honlyR

/-- Claim C6 (amended): the renderer performs no frame-shape validation at
all — for input frames of any shapes (matching the BlendContext or not) it
returns a canvas composite of valid uint8 values, with pixels outside both
masks black. -/
theorem render_no_shape_validation (dt : Img1 → Img1Q)
    (hL wLd hR wRd : ℕ) (txL tyL txR tyR : ℤ) (outW outH : ℕ)
    (hLf wLf hRf wRf : ℕ) (frameL frameR : Img3) (em : Bool) (y x c : ℕ) :
    renderJoinedFrameWithContext hLf wLf hRf wRf frameL frameR txL tyL txR tyR
      (buildBlendContext dt hL wLd hR wRd txL tyL txR tyR outW outH) em y x c ≤ 255 ∧
    ((buildBlendContext dt hL wLd hR wRd txL tyL txR tyR outW outH).both y x = false →
      (buildBlendContext dt hL wLd hR wRd txL tyL txR tyR outW outH).onlyL y x = false →
      (buildBlendContext dt hL wLd hR wRd txL tyL txR tyR outW outH).onlyR y x = false →
      renderJoinedFrameWithContext hLf wLf hRf wRf frameL frameR txL tyL txR tyR
        (buildBlendContext dt hL wLd hR wRd txL tyL txR tyR outW outH) em y x c = 0) := by
  constructor
  · unfold renderJoinedFrameWithContext
    cases hboth : (buildBlendContext dt hL wLd hR wRd txL tyL txR tyR outW outH).both y x
    · cases honlyL : (buildBlendContext dt hL wLd hR wRd txL tyL txR tyR outW outH).onlyL y x
      · cases honlyR : (buildBlendContext dt hL wLd hR wRd txL tyL txR tyR outW outH).onlyR y x
        · simp only [hboth, honlyL, honlyR, Bool.false_eq_true, if_false]
          omega
        · simp only [hboth, honlyL, honlyR, Bool.false_eq_true, if_false, if_true]
          exact toU8_le_255 _
      · simp only [hboth, honlyL, Bool.false_eq_true, if_false, if_true]
        exact toU8_le_255 _
    · simp only [hboth, if_true]
      exact toU8_le_255 _
  · intro h1 h2 h3
    exact render_at_neither hLf wLf hRf wRf frameL frameR txL tyL txR tyR _ em y x c
      h1 h2 h3

/-- Witness for C3 at a concrete setup: unit frames placed at canvas
columns 0 and 2 of a 3-wide canvas; pixel (0,0) is left-only and renders
the left frame value 7. -/
theorem render_exclusive_region_fidelity_witness :
    ((buildBlendContext (fun _ _ _ => 0) 1 1 1 1 0 0 2 0 3 1).onlyL 0 0 = true) ∧
      renderJoinedFrameWithContext 1 1 1 1 (fun _ _ _ => 7) (fun _ _ _ => 9) 0 0 2 0
        (buildBlendContext (fun _ _ _ => 0) 1 1 1 1 0 0 2 0 3 1) false 0 0 0 = 7 := by
  refine ⟨by decide, ?_⟩
  have h := (render_exclusive_region_fidelity (fun _ _ _ => 0) 1 1 1 1 0 0 2 0 3 1
      1 1 1 1 (fun _ _ _ => 7) (fun _ _ _ => 9) false 0 0 0
      (fun _ _ _ => by norm_num) (fun _ _ _ => by norm_num)).1 (by decide)
  rw [h]
  decide

/-- Witness for C9 at a concrete setup with disjoint masks (unit frames at
canvas columns 0 and 2). -/
theorem blend_empty_overlap_defaults_witness :
    (∀ yy < 1, ∀ xx < 3, bothMask (warp1 1 1 0 0 (fun _ _ => 255))
        (warp1 1 1 2 0 (fun _ _ => 255)) yy xx = false) ∧
      (buildBlendContext (fun _ _ _ => 0) 1 1 1 1 0 0 2 0 3 1).wL 0 1 = 1 ∧
      (buildBlendContext (fun _ _ _ => 0) 1 1 1 1 0 0 2 0 3 1).wR 0 1 = 0 := by
  have h := blend_empty_overlap_defaults (fun _ _ _ => 0) 1 1 1 1 0 0 2 0 3 1
    1 1 1 1 (fun _ _ _ => 7) (fun _ _ _ => 9) true 0 1 0
    (by decide) (fun _ _ _ => by norm_num) (fun _ _ _ => by norm_num)
  exact ⟨by decide, h.1, h.2.1⟩

/-- Counterexample to C6 as stated: a BlendContext built for 1x2 frames,
rendered with a left frame of the mismatching shape 2x5 — instead of
failing with a ResolutionMismatch error (no such check exists in the code),
the renderer returns the ordinary composite: left copy at column 0,
feather blend at column 1, right copy at column 2. -/
theorem render_shape_mismatch_returns_frame :
    renderJoinedFrameWithContext 2 5 1 2 (fun _ _ _ => 10) (fun _ _ _ => 20) 0 0 1 0
        (buildBlendContext (fun _ _ _ => 1) 1 2 1 2 0 0 1 0 3 1) false 0 0 0 = 10 ∧
      renderJoinedFrameWithContext 2 5 1 2 (fun _ _ _ => 10) (fun _ _ _ => 20) 0 0 1 0
        (buildBlendContext (fun _ _ _ => 1) 1 2 1 2 0 0 1 0 3 1) false 0 1 0 = 15 ∧
      renderJoinedFrameWithContext 2 5 1 2 (fun _ _ _ => 10) (fun _ _ _ => 20) 0 0 1 0
        (buildBlendContext (fun _ _ _ => 1) 1 2 1 2 0 0 1 0 3 1) false 0 2 0 = 20 := by
  refine ⟨?_, ?_, ?_⟩ <;>
    · norm_num [renderJoinedFrameWithContext, buildBlendContext, bothMask, onlyLMask,
        onlyRMask, maskPos, warp1, warp3, weightL, weightR, bothAny, maskScaled,
        toU8, clipQ, List.range_succ]
      decide

/-- Witness for the amended C6: with the same mismatched frame shapes,
canvas pixel (0,5) lies outside both masks and renders black. -/
theorem render_no_shape_validation_witness :
    renderJoinedFrameWithContext 2 5 1 2 (fun _ _ _ => 10) (fun _ _ _ => 20) 0 0 1 0
      (buildBlendContext (fun _ _ _ => 1) 1 2 1 2 0 0 1 0 3 1) false 0 5 0 = 0 :=
  (render_no_shape_validation (fun _ _ _ => 1) 1 2 1 2 0 0 1 0 3 1
    2 5 1 2 (fun _ _ _ => 10) (fun _ _ _ => 20) false 0 5 0).2
    (by decide) (by decide) (by decide)

/-- Claim C4: the Calibration composed by the estimator has out_size equal
to the union bounding box of the left frame rectangle and the
dx-translated right frame rectangle — both canvas translations are
non-negative, every frame point lands inside the canvas, the box is tight
on all sides, and any canvas containing both rectangles is at least
out_size — and the y components of the canvas homographies are 0. -/
theorem calibration_canvas_smallest (w h : ℕ) (dx : ℤ) :
    (calibrationOfDx w h dx).H_left_to_canvas 0 2 = (canvasTxL dx : ℚ) ∧
    (calibrationOfDx w h dx).H_right_to_canvas 0 2 = (canvasTxR dx : ℚ) ∧
    (calibrationOfDx w h dx).H_left_to_canvas 1 2 = 0 ∧
    (calibrationOfDx w h dx).H_right_to_canvas 1 2 = 0 ∧
    0 ≤ canvasTxL dx ∧ 0 ≤ canvasTxR dx ∧
    (∀ p : ℤ, 0 ≤ p → p ≤ (w : ℤ) →
      0 ≤ p + canvasTxL dx ∧
      p + canvasTxL dx ≤ (calibrationOfDx w h dx).out_size_wh.1 ∧
      0 ≤ p + canvasTxR dx ∧
      p + canvasTxR dx ≤ (calibrationOfDx w h dx).out_size_wh.1) ∧
    min (canvasTxL dx) (canvasTxR dx) = 0 ∧
    max ((w : ℤ) + canvasTxL dx) ((w : ℤ) + canvasTxR dx)
      = (calibrationOfDx w h dx).out_size_wh.1 ∧
    (calibrationOfDx w h dx).out_size_wh.2 = (h : ℤ) ∧
    (∀ W2 H2 : ℤ, (w : ℤ) + canvasTxL dx ≤ W2 → (w : ℤ) + canvasTxR dx ≤ W2 →
      (h : ℤ) ≤ H2 →
      (calibrationOfDx w h dx).out_size_wh.1 ≤ W2 ∧
      (calibrationOfDx w h dx).out_size_wh.2 ≤ H2) := by
  refine ⟨rfl, rfl, rfl, rfl, ?_, ?_, ?_, ?_, ?_, rfl, ?_⟩
  · unfold canvasTxL canvasMinX; omega
  · unfold canvasTxR canvasMinX; omega
  · intro p hp0 hpw
    show 0 ≤ p + canvasTxL dx ∧ p + canvasTxL dx ≤ canvasOutW w dx ∧
      0 ≤ p + canvasTxR dx ∧ p + canvasTxR dx ≤ canvasOutW w dx
    unfold canvasTxL canvasTxR canvasOutW canvasMinX
    omega
  · unfold canvasTxL canvasTxR canvasMinX; omega
  · show _ = canvasOutW w dx
    unfold canvasTxL canvasTxR canvasOutW canvasMinX
    omega
  · intro W2 H2 h1 h2 h3
    constructor
    · show canvasOutW w dx ≤ W2
      simp only [canvasTxL, canvasTxR, canvasMinX] at h1 h2
      unfold canvasOutW canvasMinX
      omega
    · exact h3

/-- Witness for C4 at w = 4, h = 2, dx = -3 (the right frame hangs off the
left edge, so the canvas shifts both frames right by 3 and is 7 wide). -/
theorem calibration_canvas_smallest_witness :
    (0 : ℤ) ≤ 0 + canvasTxL (-3) ∧
      (0 : ℤ) + canvasTxL (-3) ≤ (calibrationOfDx 4 2 (-3)).out_size_wh.1 ∧
      (0 : ℤ) ≤ 0 + canvasTxR (-3) ∧
      (0 : ℤ) + canvasTxR (-3) ≤ (calibrationOfDx 4 2 (-3)).out_size_wh.1 :=
  ((calibration_canvas_smallest 4 2 (-3)).2.2.2.2.2.2.1) 0 (by norm_num) (by norm_num)

/-- Claim C8: the feature-based RANSAC translation estimator is
reproducible — its sampling comes from the explicitly seeded, deterministic
generator default_rng(0) with no ambient state, so two runs on the same
matched displacements return the same translation and inlier count. -/
theorem ransac_deterministic_across_runs (d1 d2 : List (ℚ × ℚ)) (h : d1 = d2) :
    estimateTranslationRansac d1 = estimateTranslationRansac d2 := by
  rw [h]

/-- Witness for C8: two runs on the same concrete displacement list agree. -/
theorem ransac_deterministic_across_runs_witness :
    estimateTranslationRansac [] = estimateTranslationRansac [] :=
  ransac_deterministic_across_runs [] [] rfl

/-- Claim C5: serializing a Calibration to the structured JSON dictionary and
deserializing the result yields a Calibration whose homography matrices,
out_size and metadata fields (feature, ecc_motion, ecc_cc) are identical to
the original. -/
theorem calibration_json_round_trip (c : Calibration) :
    fromJsonDict (toJsonDict c) = c := by
  cases c with
  | mk h1 sz h2 h3 f m cc =>
    simp [fromJsonDict, toJsonDict, listsToMat_matToLists]

end JoinTwoCamera
